import Mathlib

/-!
Verification of the barcode resolution and catalog-merge subsystem of the
Midlands price-checker backend.  The Python source (`app.py`, `import_csv.py`,
`db.py`) is shallowly embedded: SQLite tables become lists of rows, SQL
queries become list filters and joins, and Python exceptions become `Except`
values.  All definitions are translated from the source files; the one
definition written from the specification's words (`specBarcodeModeRows`) is
marked as such and is used only for a refinement comparison.
-/

set_option autoImplicit false

namespace Midlands

/-! ### Python string helpers -/

/-- The no-break space character, which `_norm` in `import_csv.py` replaces
with a plain space before stripping. -/
def nbsp : Char := Char.ofNat 160

/-- Characters removed by Python `str.strip()` (Unicode whitespace; we cover
ASCII whitespace plus the no-break space, the only cases the data can carry). -/
def isPySpace (c : Char) : Bool := c.isWhitespace || c == nbsp

/-- Python `str.strip()` on the underlying character list. -/
def pyStripL (l : List Char) : List Char :=
  ((l.dropWhile isPySpace).reverse.dropWhile isPySpace).reverse

/-- Python `str.strip()`. -/
def pyStrip (s : String) : String := ⟨pyStripL s.data⟩

/-- Python `str.lower()` / SQL `LOWER` (ASCII case folding). -/
def pyLower (s : String) : String := ⟨s.data.map Char.toLower⟩

/-- Substring containment on character lists. -/
def containsL (hay pat : List Char) : Bool :=
  (List.range (hay.length + 1)).any (fun i => pat.isPrefixOf (hay.drop i))

/-- Python `pat in hay` for strings. -/
def strContains (hay pat : String) : Bool := containsL hay.data pat.data

/-- SQL `LOWER(x) LIKE LOWER('%pat%')`, and SQLite `LIKE`'s default
ASCII-case-insensitive matching. -/
def likeContains (hay pat : String) : Bool :=
  strContains (pyLower hay) (pyLower pat)

/-- Python `str.isdigit()`: nonempty and all digits. -/
def pyIsDigit (s : String) : Bool := !s.data.isEmpty && s.data.all Char.isDigit

/-- `q.replace(" ", "")` from `_search_products_internal`. -/
def compactSpaces (s : String) : String := ⟨s.data.filter (fun c => c != ' ')⟩

/-- `re.sub(r"\D+", "", s)`: keep only digits. -/
def digitsOnly (s : String) : String := ⟨s.data.filter Char.isDigit⟩

/-- `_norm` from `import_csv.py`: `str(s or "")`, no-break spaces replaced by
spaces, then stripped.  A missing value (`None`) becomes the empty string. -/
def pyNorm (s : Option String) : String :=
  pyStrip ⟨(s.getD "").data.map (fun c => if c == nbsp then ' ' else c)⟩

/-- Python truthiness of an optional string (`if bc:`). -/
def optStrTruthy : Option String → Bool
  | none => false
  | some s => s != ""

/-! ### Barcode normalization -/

/-- `_clean_barcode` from `import_csv.py`: normalize to digits only,
returning `none` if unusable (empty or all zeros). -/
def cleanBarcodeCsv (raw : Option String) : Option String :=
  let s := pyNorm raw
  if s = "" then none
  else
    let s1 : String := ⟨s.data.filter (fun c => c != '^')⟩
    let digits := digitsOnly s1
    if digits = "" then none
    else if digits.data.all (fun c => c == '0') then none
    else some digits

/-- `_clean_barcode` from `app.py`.  The Python version raises
`HTTPException(400)` when the input is unusable; that outcome is modelled as
`none`. -/
def cleanBarcodeApp (raw : String) : Option String :=
  let s := pyStrip raw
  let s1 : String := ⟨s.data.filter (fun c => c != '^')⟩
  let digits := digitsOnly s1
  if digits = "" || digits.data.all (fun c => c == '0') then none
  else some digits

/-! ### Data model (db.py / import_csv.py schema) -/

/-- A row of the `products` table. -/
structure ProductRow where
  product_code : String
  full_description : String
  retail_price : Rat
  manufacturers_product_code : Option String
  barcode : Option String
deriving DecidableEq

/-- A row of the `barcode_overrides` table.  The application only ever writes
non-NULL barcodes, so the barcode field is a plain string. -/
structure OverrideRow where
  product_code : String
  barcode : String
deriving DecidableEq

/-- A row of the `barcode_aliases` table. -/
structure AliasRow where
  barcode : String
  product_code : String
deriving DecidableEq

/-- The database state: the three stores of the core subsystem. -/
structure DB where
  products : List ProductRow
  overrides : List OverrideRow
  aliases : List AliasRow
deriving DecidableEq

/-- `SELECT product_code ... WHERE product_code = ?` then `fetchone()`. -/
def lookupProduct (db : DB) (code : String) : Option ProductRow :=
  db.products.find? (fun p => p.product_code == code)

/-! ### Search row selection (`_search_products_internal`, app.py) -/

/-- A result row `SELECT p.*, ... AS effective_barcode`. -/
structure SRow where
  prod : ProductRow
  effective_barcode : Option String
deriving DecidableEq

/-- `LEFT JOIN barcode_overrides o ON o.product_code = p.product_code`: the
override barcodes joined to `p`, a single NULL when no override matches. -/
def ovJoin (db : DB) (p : ProductRow) : List (Option String) :=
  let ms := db.overrides.filter (fun o => o.product_code == p.product_code)
  if ms.isEmpty then [none] else ms.map (fun o => some o.barcode)

/-- Result rows for product `p` with
`COALESCE(o.barcode, p.barcode) AS effective_barcode`. -/
def effRows (db : DB) (p : ProductRow) : List SRow :=
  (ovJoin db p).map (fun ob =>
    ⟨p, match ob with | some b => some b | none => p.barcode⟩)

/-- smart step 1: `FROM barcode_aliases a JOIN products p LEFT JOIN
barcode_overrides o WHERE a.barcode = ? LIMIT ?`. -/
def aliasExactRows (db : DB) (bc : String) (lim : Nat) : List SRow :=
  ((db.aliases.filter (fun a => a.barcode == bc)).flatMap (fun a =>
      (db.products.filter (fun p => p.product_code == a.product_code)).flatMap
        (fun p => effRows db p))).take lim

/-- smart step 2: `FROM barcode_overrides o JOIN products p WHERE o.barcode = ?`
with `o.barcode AS effective_barcode`. -/
def overrideExactRows (db : DB) (bc : String) (lim : Nat) : List SRow :=
  ((db.overrides.filter (fun o => o.barcode == bc)).flatMap (fun o =>
      (db.products.filter (fun p => p.product_code == o.product_code)).map
        (fun p => ⟨p, some o.barcode⟩))).take lim

/-- smart step 3: `FROM products p LEFT JOIN barcode_overrides o WHERE
p.barcode = ?`. -/
def productBarcodeExactRows (db : DB) (bc : String) (lim : Nat) : List SRow :=
  ((db.products.filter (fun p => p.barcode == some bc)).flatMap
      (fun p => effRows db p)).take lim

/-- smart step 4: `... WHERE p.product_code = ?`. -/
def productCodeExactRows (db : DB) (c : String) (lim : Nat) : List SRow :=
  ((db.products.filter (fun p => p.product_code == c)).flatMap
      (fun p => effRows db p)).take lim

/-- `ORDER BY p.full_description`: insertion of one row into a sorted list. -/
def insertSorted (p : ProductRow) : List ProductRow → List ProductRow
  | [] => [p]
  | q :: l =>
      if p.full_description ≤ q.full_description then p :: q :: l
      else q :: insertSorted p l

/-- `ORDER BY p.full_description` over a whole result set. -/
def sortByDescription : List ProductRow → List ProductRow
  | [] => []
  | p :: l => insertSorted p (sortByDescription l)

/-- smart step 5 / `name` mode: `WHERE LOWER(full_description) LIKE LOWER(?)
ORDER BY full_description LIMIT ?`. -/
def nameLikeRows (db : DB) (q : String) (lim : Nat) : List SRow :=
  ((sortByDescription
      (db.products.filter (fun p => likeContains p.full_description q))).flatMap
      (fun p => effRows db p)).take lim

/-- `code` mode: exact or substring on product_code / manufacturers code. -/
def codeModeRows (db : DB) (q : String) (lim : Nat) : List SRow :=
  ((sortByDescription (db.products.filter (fun p =>
      p.product_code == q ||
      p.manufacturers_product_code == some q ||
      likeContains p.product_code q ||
      (match p.manufacturers_product_code with
       | some m => likeContains m q
       | none => false)))).flatMap (fun p => effRows db p)).take lim

/-- barcode mode step 1: `WHERE p.barcode = ? OR p.barcode LIKE ?`. -/
def barcodeProductsRows (db : DB) (qc : String) (lim : Nat) : List SRow :=
  ((db.products.filter (fun p =>
      p.barcode == some qc ||
      (match p.barcode with
       | some b => likeContains b qc
       | none => false))).flatMap (fun p => effRows db p)).take lim

/-- barcode mode step 2: overrides, exact or substring.  `COALESCE(o.barcode,
p.barcode)` is `o.barcode` because the override row is the FROM table. -/
def barcodeOverridesRows (db : DB) (qc : String) (lim : Nat) : List SRow :=
  ((db.overrides.filter (fun o => o.barcode == qc || likeContains o.barcode qc)).flatMap
      (fun o =>
        (db.products.filter (fun p => p.product_code == o.product_code)).map
          (fun p => ⟨p, some o.barcode⟩))).take lim

/-- barcode mode step 3: aliases, exact or substring. -/
def barcodeAliasRows (db : DB) (qc : String) (lim : Nat) : List SRow :=
  ((db.aliases.filter (fun a => a.barcode == qc || likeContains a.barcode qc)).flatMap
      (fun a =>
        (db.products.filter (fun p => p.product_code == a.product_code)).flatMap
          (fun p => effRows db p))).take lim

/-- `mode == "smart"` branch of `_search_products_internal` (row selection). -/
def smartRows (db : DB) (q : String) (lim : Nat) : List SRow :=
  let q_compact := compactSpaces q
  if pyIsDigit q_compact then
    let r1 := aliasExactRows db q_compact lim
    if !r1.isEmpty then r1 else
    let r2 := overrideExactRows db q_compact lim
    if !r2.isEmpty then r2 else
    let r3 := productBarcodeExactRows db q_compact lim
    if !r3.isEmpty then r3 else
    let r4 := productCodeExactRows db q_compact lim
    if !r4.isEmpty then r4 else
    nameLikeRows db q lim
  else nameLikeRows db q lim

/-- `mode == "barcode"` branch of `_search_products_internal` (row selection):
products first, then overrides, then aliases, substring allowed at each
step. -/
def barcodeRows (db : DB) (q : String) (lim : Nat) : List SRow :=
  let q_compact := compactSpaces q
  let r1 := barcodeProductsRows db q_compact lim
  if !r1.isEmpty then r1 else
  let r2 := barcodeOverridesRows db q_compact lim
  if !r2.isEmpty then r2 else
  barcodeAliasRows db q_compact lim

/-- Row selection of `_search_products_internal` (app.py): query and mode are
stripped, an empty query short-circuits to no rows, and an unrecognized mode
recurses with mode "smart". -/
def searchRows (db : DB) (q mode : String) (lim : Nat) : List SRow :=
  let q1 := pyStrip q
  if q1 = "" then []
  else
    let m := pyStrip (if mode = "" then "smart" else mode)
    if m = "smart" then smartRows db q1 lim
    else if m = "name" then nameLikeRows db q1 lim
    else if m = "code" then codeModeRows db q1 lim
    else if m = "barcode" then barcodeRows db q1 lim
    else smartRows db q1 lim

/-! ### Row conversion (`_rows_to_products`, app.py) -/

/-- The serialized product payload (`ProductOut`). -/
structure ProductOut where
  product_code : String
  full_description : String
  retail_price : Rat
  manufacturers_product_code : Option String
  barcode : Option String
deriving DecidableEq

/-- Python exceptions escaping the embedded functions. -/
inductive PyError where
  /-- `AttributeError`: calling a method an object does not have. -/
  | attributeError
deriving DecidableEq

/-- `_rows_to_products` (app.py).  The loop body evaluates
`r.get("manufacturers_product_code")`, but the rows are `sqlite3.Row` objects
(`db.py` sets `conn.row_factory = sqlite3.Row`) and `sqlite3.Row` provides
indexing and `keys()` but no `get` method, so the first iteration raises
`AttributeError`.  Only an empty row list converts successfully. -/
def rowsToProducts (rows : List SRow) : Except PyError (List ProductOut) :=
  match rows with
  | [] => .ok []
  | _ :: _ => .error .attributeError

/-- `_search_products_internal` (app.py): the selected rows are passed through
`_rows_to_products` at every return point, which depends only on the selected
rows. -/
def searchProducts (db : DB) (q mode : String) (lim : Nat) :
    Except PyError (List ProductOut) :=
  rowsToProducts (searchRows db q mode lim)

/-- `COALESCE(o.barcode, p.barcode)`: the effective barcode every resolver
query computes for a product row (override wins over catalog). -/
def effectiveBarcode (db : DB) (p : ProductRow) : Option String :=
  match db.overrides.find? (fun o => o.product_code == p.product_code) with
  | some o => some o.barcode
  | none => p.barcode

/-- Modelled from the spec: the barcode-mode algorithm as §4.3 of the spec
describes it — "same precedence chain as step 1" (alias, then override, then
catalog barcode, each exact) "but substring matching is permitted as a final
fallback against the effective barcode when no exact match is found
anywhere".  Written for comparison with `barcodeRows`, the chain the code
actually implements. -/
def specBarcodeModeRows (db : DB) (q : String) (lim : Nat) : List SRow :=
  let qc := compactSpaces q
  let r1 := aliasExactRows db qc lim
  if !r1.isEmpty then r1 else
  let r2 := overrideExactRows db qc lim
  if !r2.isEmpty then r2 else
  let r3 := productBarcodeExactRows db qc lim
  if !r3.isEmpty then r3 else
  ((db.products.filter (fun p =>
      match effectiveBarcode db p with
      | some b => strContains b qc
      | none => false)).flatMap (fun p => effRows db p)).take lim

/-! ### Catalog import (`_upsert_products`, import_csv.py) -/

/-- A normalized import record, as produced by `to_records` in
`import_products_two_reports`; a missing CSV cell is `none`.  `retail_price`
already went through `_to_float`. -/
structure ImportRec where
  product_code : Option String
  full_description : Option String
  retail_price : Rat
  manufacturers_product_code : Option String
  barcode : Option String
deriving DecidableEq

/-- The sentinel / non-product skip test of `_upsert_products`: sentinel
product codes and report-artefact description markers (case-insensitive). -/
def skipRecord (code desc : String) : Bool :=
  code == "999998" || code == "999999" ||
  strContains (pyLower desc) "line group" ||
  strContains (pyLower desc) "handling charge"

/-- One iteration of the loop in `_upsert_products`: upsert a single record,
returning the new state and the increment of the `changed` counter.
`float(rec.get("retail_price") or 0.0)` is the identity on the already
converted rational price. -/
def upsertOne (db : DB) (prefer_barcode : Bool) (rec : ImportRec) : DB × Nat :=
  let code := pyNorm rec.product_code
  if code = "" then (db, 0)
  else
    let desc :=
      let d := pyNorm rec.full_description
      if d = "" then "Unknown product" else d
    let price := rec.retail_price
    let mpc :=
      let m := pyNorm rec.manufacturers_product_code
      if m = "" then none else some m
    let bc := rec.barcode
    if skipRecord code desc then (db, 0)
    else
      match db.products.find? (fun p => p.product_code == code) with
      | some existing =>
        let existing_barcode := existing.barcode
        let new_barcode :=
          if optStrTruthy bc then
            if prefer_barcode then bc
            else if !optStrTruthy existing_barcode then bc
            else existing_barcode
          else existing_barcode
        let products := db.products.map (fun p =>
          if p.product_code == code then
            { p with full_description := desc, retail_price := price,
                     manufacturers_product_code := mpc,
                     barcode := new_barcode }
          else p)
        ({ db with products := products }, 1)
      | none =>
        let inserted : ProductRow :=
          { product_code := code, full_description := desc,
            retail_price := price, manufacturers_product_code := mpc,
            barcode :=
              if prefer_barcode then bc
              else if optStrTruthy bc then bc else none }
        ({ db with products := db.products ++ [inserted] }, 1)

/-- `_upsert_products` (import_csv.py): iterate the per-record upsert over the
record list in order, accumulating the `changed` counter (the loop adds the
increments left to right; addition is associative, so the recursive sum is the
same). -/
def upsertProducts (db : DB) (records : List ImportRec) (prefer_barcode : Bool) :
    DB × Nat :=
  match records with
  | [] => (db, 0)
  | rec :: rest =>
    let r := upsertOne db prefer_barcode rec
    let rs := upsertProducts r.1 rest prefer_barcode
    (rs.1, r.2 + rs.2)

/-- Whether `_upsert_products` counts a record as changed: it has a product
code after normalization and is not a sentinel / non-product row.  This is
the claim-level description of the counter. -/
def recImported (rec : ImportRec) : Bool :=
  let code := pyNorm rec.product_code
  let desc :=
    let d := pyNorm rec.full_description
    if d = "" then "Unknown product" else d
  !(code == "") && !(skipRecord code desc)

/-- The result payload of `import_products_two_reports`. -/
structure ImportCounts where
  imported_with_barcodes : Nat
  imported_without_barcodes : Nat
  total_changed : Nat
deriving DecidableEq

/-- `import_products_two_reports` (import_csv.py) at the record level (CSV
file reading and header detection are the out-of-scope collaborator): the
barcode report is imported first with `prefer_barcode=True`, the no-barcode
report second with `prefer_barcode=False`. -/
def import_products_two_reports (db : DB) (rec_a rec_b : List ImportRec) :
    DB × ImportCounts :=
  let ra := upsertProducts db rec_a true
  let rb := upsertProducts ra.1 rec_b false
  (rb.1, ⟨ra.2, rb.2, ra.2 + rb.2⟩)

/-! ### Override manager (app.py) -/

/-- The failure modes of the override endpoints, by HTTP status and cause. -/
inductive OverrideError where
  /-- 400 `product_code required`, or the pydantic `min_length=1` rejection of
  an empty barcode payload. -/
  | badRequest
  /-- 400 from `_clean_barcode`: input normalizes to absent. -/
  | invalidBarcode
  /-- 404 `Product not found`. -/
  | productNotFound
  /-- 409 barcode already assigned to a different product. -/
  | barcodeConflict
deriving DecidableEq

/-- `set_product_barcode` (app.py): validate, check the product exists, check
the alias index for a cross-product collision, then upsert the override row
and the alias row (and optionally the catalog barcode). -/
def set_product_barcode (db : DB) (product_code raw_barcode : String)
    (also_update_products_table : Bool) : Except OverrideError (DB × String) :=
  if raw_barcode = "" then .error .badRequest
  else
    let code := pyStrip product_code
    if code = "" then .error .badRequest
    else
      match cleanBarcodeApp raw_barcode with
      | none => .error .invalidBarcode
      | some new_bc =>
        match db.products.find? (fun p => p.product_code == code) with
        | none => .error .productNotFound
        | some _ =>
          let conflict :=
            match db.aliases.find? (fun a => a.barcode == new_bc) with
            | some row => row.product_code != code
            | none => false
          if conflict then .error .barcodeConflict
          else
            let overrides :=
              match db.overrides.find? (fun o => o.product_code == code) with
              | some _ => db.overrides.map (fun o =>
                  if o.product_code == code then { o with barcode := new_bc }
                  else o)
              | none => db.overrides ++ [⟨code, new_bc⟩]
            let aliases :=
              match db.aliases.find? (fun a => a.barcode == new_bc) with
              | some _ => db.aliases.map (fun a =>
                  if a.barcode == new_bc then { a with product_code := code }
                  else a)
              | none => db.aliases ++ [⟨new_bc, code⟩]
            let products :=
              if also_update_products_table then
                db.products.map (fun p =>
                  if p.product_code == code then { p with barcode := some new_bc }
                  else p)
              else db.products
            .ok ({ products := products, overrides := overrides,
                   aliases := aliases }, new_bc)

/-- The payload of `clear_product_barcode_override`: whether a row was
deleted. -/
structure ClearResult where
  deleted : Bool
deriving DecidableEq

/-- `clear_product_barcode_override` (app.py): a missing override is a no-op
success; otherwise delete the override row and delete the alias row only if
it still points at this product. -/
def clear_product_barcode_override (db : DB) (product_code : String) :
    Except OverrideError (DB × ClearResult) :=
  let code := pyStrip product_code
  if code = "" then .error .badRequest
  else
    match db.overrides.find? (fun o => o.product_code == code) with
    | none => .ok (db, ⟨false⟩)
    | some row =>
      let bc := pyStrip row.barcode
      let overrides := db.overrides.filter (fun o => !(o.product_code == code))
      let aliases :=
        if bc != "" then
          match db.aliases.find? (fun a => a.barcode == bc) with
          | some arow =>
            if arow.product_code == code then
              db.aliases.filter (fun a => !(a.barcode == bc))
            else db.aliases
          | none => db.aliases
        else db.aliases
      .ok ({ db with overrides := overrides, aliases := aliases }, ⟨true⟩)

/-! ### Concrete states used in the theorems below -/

/-- Product P1, no catalog barcode of its own. -/
def prodP1 : ProductRow := ⟨"P1", "Product one", 10, none, none⟩

/-- Product P2 whose own catalog barcode is `999`. -/
def prodP2 : ProductRow := ⟨"P2", "Product two", 20, none, some "999"⟩

/-- The pre-override data anomaly of the spec: the alias index maps `999` to
`P1` while product `P2`'s own catalog barcode is also `999`. -/
def dbAnomaly : DB := ⟨[prodP1, prodP2], [], [⟨"999", "P1"⟩]⟩

/-- Barcode-report record for product `X` carrying barcode `111`. -/
def recX111 : ImportRec := ⟨some "X", some "Widget", 10, none, some "111"⟩

/-- No-barcode-report record for the same product `X` (absent barcode). -/
def recXabs : ImportRec := ⟨some "X", some "Widget", 12, none, none⟩

/-- The state after importing the single barcode-report record for `X`. -/
def dbX : DB := (upsertProducts ⟨[], [], []⟩ [recX111] true).1

/-- The state after additionally overriding `X`'s barcode to `222`. -/
def dbXov : DB :=
  ⟨[⟨"X", "Widget", 10, none, some "111"⟩], [⟨"X", "222"⟩], [⟨"222", "X"⟩]⟩

/-- Two plain products with no barcodes, no overrides, no aliases. -/
def dbPQ : DB :=
  ⟨[⟨"P", "Prod P", 10, none, none⟩, ⟨"Q", "Prod Q", 11, none, none⟩], [], []⟩

/-- `dbPQ` after overriding `P`'s barcode to `111`. -/
def dbPQ1 : DB := ⟨dbPQ.products, [⟨"P", "111"⟩], [⟨"111", "P"⟩]⟩

/-- `dbPQ1` after re-overriding `P`'s barcode to `222`: the stale `111` alias
remains. -/
def dbPQ2 : DB :=
  ⟨dbPQ.products, [⟨"P", "222"⟩], [⟨"111", "P"⟩, ⟨"222", "P"⟩]⟩

/-! ### Helper lemmas: normalization -/

theorem isDigit_eq_false_of_pySpace {c : Char} (h : isPySpace c = true) :
    c.isDigit = false := by
  unfold isPySpace at h
  simp only [Bool.or_eq_true, beq_iff_eq] at h
  rcases h with h | h
  · unfold Char.isWhitespace at h
    simp only [Bool.or_eq_true, decide_eq_true_eq] at h
    rcases h with ((h | h) | h) | h <;> subst h <;> decide
  · subst h; decide

theorem filter_dropWhile_of_excl (q p : Char → Bool)
    (h : ∀ c, p c = true → q c = false) :
    ∀ l : List Char, (l.dropWhile p).filter q = l.filter q := by
  intro l
  induction l with
  | nil => rfl
  | cons c t ih =>
    rw [List.dropWhile_cons]
    by_cases hp : p c = true
    · rw [if_pos hp, ih, List.filter_cons, if_neg]
      simp [h c hp]
    · rw [if_neg hp]

theorem filter_digits_pyStripL (l : List Char) :
    (pyStripL l).filter Char.isDigit = l.filter Char.isDigit := by
  unfold pyStripL
  rw [List.filter_reverse,
      filter_dropWhile_of_excl _ _ (fun c h => isDigit_eq_false_of_pySpace h),
      List.filter_reverse, List.reverse_reverse,
      filter_dropWhile_of_excl _ _ (fun c h => isDigit_eq_false_of_pySpace h)]

theorem filter_digits_map_nbsp (l : List Char) :
    (l.map (fun c => if c == nbsp then ' ' else c)).filter Char.isDigit
      = l.filter Char.isDigit := by
  induction l with
  | nil => rfl
  | cons c t ih =>
    by_cases hc : c == nbsp
    · have hceq : c = nbsp := eq_of_beq hc
      subst hceq
      have h1 : (' ').isDigit = false := by decide
      have h2 : nbsp.isDigit = false := by decide
      simpa [List.filter_cons, h1, h2] using ih
    · simp only [List.map_cons, if_neg hc]
      rw [List.filter_cons, List.filter_cons, ih]

theorem filter_digits_caret (l : List Char) :
    (l.filter (fun c => c != '^')).filter Char.isDigit = l.filter Char.isDigit := by
  rw [List.filter_filter]
  apply List.filter_congr
  intro c _
  cases hd : Char.isDigit c
  · simp
  · cases hne : c == '^'
    · simp [bne, hne]
    · have hce : c = '^' := eq_of_beq hne
      subst hce
      exact absurd hd (by decide)

theorem digitsOnly_pyStrip (s : String) : digitsOnly (pyStrip s) = digitsOnly s :=
  congrArg String.mk (filter_digits_pyStripL s.data)

theorem digitsOnly_caret (s : String) :
    digitsOnly ⟨s.data.filter (fun c => c != '^')⟩ = digitsOnly s :=
  congrArg String.mk (filter_digits_caret s.data)

theorem digitsOnly_pyNorm (s : String) : digitsOnly (pyNorm (some s)) = digitsOnly s := by
  unfold pyNorm
  rw [digitsOnly_pyStrip]
  exact congrArg String.mk (filter_digits_map_nbsp s.data)

theorem cleanBarcodeApp_eq (raw : String) :
    cleanBarcodeApp raw =
      if digitsOnly raw = "" || (digitsOnly raw).data.all (fun c => c == '0')
      then none else some (digitsOnly raw) := by
  simp only [cleanBarcodeApp]
  rw [digitsOnly_caret (pyStrip raw), digitsOnly_pyStrip]

theorem cleanBarcodeCsv_eq_app (raw : String) :
    cleanBarcodeCsv (some raw) = cleanBarcodeApp raw := by
  rw [cleanBarcodeApp_eq]
  simp only [cleanBarcodeCsv]
  by_cases hs : pyNorm (some raw) = ""
  · have hd : digitsOnly raw = "" := by
      rw [← digitsOnly_pyNorm raw, hs]; rfl
    simp [hs, hd]
  · rw [if_neg hs, digitsOnly_caret (pyNorm (some raw)), digitsOnly_pyNorm]
    by_cases h1 : digitsOnly raw = ""
    · simp [h1]
    · rw [if_neg h1]
      by_cases h2 : (digitsOnly raw).data.all (fun c => c == '0') = true
      · simp [h1, h2]
      · simp only [Bool.not_eq_true] at h2
        simp [h1, h2]

/-! ### Helper lemmas: lists and strings -/

theorem find?_map_pres {α : Type} (l : List α) (f : α → α) (p : α → Bool)
    (hf : ∀ x, p (f x) = p x) :
    (l.map f).find? p = (l.find? p).map f := by
  rw [List.find?_map, show p ∘ f = p from funext hf]

theorem take_ne_nil_of {α : Type} {l : List α} {n : Nat} (hl : l ≠ []) (hn : n ≠ 0) :
    l.take n ≠ [] := by
  intro h
  rcases List.take_eq_nil_iff.mp h with h | h
  · exact hn h
  · exact hl h

theorem dropWhile_eq_self_of_all {α : Type} (p : α → Bool) (l : List α)
    (h : ∀ c ∈ l, p c = false) : l.dropWhile p = l := by
  cases l with
  | nil => rfl
  | cons c t =>
    rw [List.dropWhile_cons, if_neg]
    simp [h c (List.mem_cons_self c t)]

theorem pyStripL_of_no_space {l : List Char} (h : ∀ c ∈ l, isPySpace c = false) :
    pyStripL l = l := by
  unfold pyStripL
  rw [dropWhile_eq_self_of_all _ l h,
      dropWhile_eq_self_of_all _ l.reverse
        (fun c hc => h c (List.mem_reverse.mp hc)),
      List.reverse_reverse]

theorem string_eq_empty_of_data {s : String} (h : s.data = []) : s = "" := by
  obtain ⟨d⟩ := s
  cases h
  rfl

theorem ne_empty_of_data_ne {s : String} (h : s.data ≠ []) : s ≠ "" := by
  intro he
  subst he
  exact h rfl

theorem isPySpace_eq_false_of_digit {c : Char} (h : c.isDigit = true) :
    isPySpace c = false := by
  cases hsp : isPySpace c
  · rfl
  · rw [isDigit_eq_false_of_pySpace hsp] at h
    exact Bool.noConfusion h

theorem pyStrip_of_digits {s : String} (h : ∀ c ∈ s.data, c.isDigit = true) :
    pyStrip s = s := by
  unfold pyStrip
  rw [pyStripL_of_no_space (fun c hc => isPySpace_eq_false_of_digit (h c hc))]

theorem compactSpaces_of_digits {s : String} (h : ∀ c ∈ s.data, c.isDigit = true) :
    compactSpaces s = s := by
  unfold compactSpaces
  have hf : s.data.filter (fun c => c != ' ') = s.data := by
    apply List.filter_eq_self.mpr
    intro c hc
    have hd := h c hc
    cases hne : c == ' '
    · simp [bne, hne]
    · have hce : c = ' ' := eq_of_beq hne
      subst hce
      exact absurd hd (by decide)
  rw [hf]

theorem pyIsDigit_of_digits {s : String} (hne : s.data ≠ [])
    (h : ∀ c ∈ s.data, c.isDigit = true) : pyIsDigit s = true := by
  unfold pyIsDigit
  rw [Bool.and_eq_true]
  constructor
  · cases hl : s.data.isEmpty
    · rfl
    · exact absurd (List.isEmpty_iff.mp hl) hne
  · rw [List.all_eq_true]
    exact h

/-! ### Helper lemmas: normalized barcodes -/

theorem cleanBarcodeApp_some {raw b : String} (h : cleanBarcodeApp raw = some b) :
    b = digitsOnly raw ∧ b.data ≠ [] ∧ (∀ c ∈ b.data, c.isDigit = true) ∧
      b.data.all (fun c => c == '0') = false := by
  rw [cleanBarcodeApp_eq] at h
  split at h
  · exact absurd h (by simp)
  · rename_i hcond
    simp only [Bool.or_eq_true, decide_eq_true_eq, not_or, Bool.not_eq_true] at hcond
    obtain ⟨hne, hz⟩ := hcond
    have hb : b = digitsOnly raw := (Option.some.inj h).symm
    subst hb
    refine ⟨rfl, ?_, ?_, hz⟩
    · intro hdata
      exact hne (string_eq_empty_of_data hdata)
    · intro c hc
      exact (List.mem_filter.mp hc).2

theorem cleanBarcodeApp_idem {raw b : String} (h : cleanBarcodeApp raw = some b) :
    cleanBarcodeApp b = some b := by
  obtain ⟨hb, hne, hdig, hz⟩ := cleanBarcodeApp_some h
  have hdd : digitsOnly b = b := by
    unfold digitsOnly
    rw [List.filter_eq_self.mpr hdig]
  have hcond : ¬((b = "" || b.data.all (fun c => c == '0')) = true) := by
    simp only [Bool.or_eq_true, decide_eq_true_eq, not_or, Bool.not_eq_true]
    exact ⟨ne_empty_of_data_ne hne, hz⟩
  rw [cleanBarcodeApp_eq, hdd, if_neg hcond]

/-! ### Helper lemmas: catalog import -/

theorem upsertOne_overrides (db : DB) (pref : Bool) (rec : ImportRec) :
    (upsertOne db pref rec).1.overrides = db.overrides := by
  simp only [upsertOne]
  repeat' split
  all_goals rfl

theorem upsertOne_aliases (db : DB) (pref : Bool) (rec : ImportRec) :
    (upsertOne db pref rec).1.aliases = db.aliases := by
  simp only [upsertOne]
  repeat' split
  all_goals rfl

theorem upsertProducts_overrides (db : DB) (recs : List ImportRec) (pref : Bool) :
    (upsertProducts db recs pref).1.overrides = db.overrides := by
  induction recs generalizing db with
  | nil => rfl
  | cons r rest ih =>
    simp only [upsertProducts]
    rw [ih, upsertOne_overrides]

theorem upsertProducts_aliases (db : DB) (recs : List ImportRec) (pref : Bool) :
    (upsertProducts db recs pref).1.aliases = db.aliases := by
  induction recs generalizing db with
  | nil => rfl
  | cons r rest ih =>
    simp only [upsertProducts]
    rw [ih, upsertOne_aliases]

theorem upsertOne_count (db : DB) (pref : Bool) (rec : ImportRec) :
    (upsertOne db pref rec).2 = if recImported rec then 1 else 0 := by
  by_cases h1 : pyNorm rec.product_code = ""
  · have hri : recImported rec = false := by simp [recImported, h1]
    simp [upsertOne, h1, hri]
  · by_cases h2 : skipRecord (pyNorm rec.product_code)
        (if pyNorm rec.full_description = "" then "Unknown product"
         else pyNorm rec.full_description) = true
    · have hri : recImported rec = false := by simp [recImported, h1, h2]
      simp [upsertOne, h1, h2, hri]
    · simp only [Bool.not_eq_true] at h2
      have hri : recImported rec = true := by simp [recImported, h1, h2]
      simp only [upsertOne, hri, if_true, if_neg h1, h2]
      rw [if_neg Bool.false_ne_true]
      split <;> rfl

theorem upsertProducts_count (db : DB) (recs : List ImportRec) (pref : Bool) :
    (upsertProducts db recs pref).2 = recs.countP recImported := by
  induction recs generalizing db with
  | nil => rfl
  | cons r rest ih =>
    simp only [upsertProducts, List.countP_cons]
    rw [ih, upsertOne_count]
    cases h : recImported r <;> simp [h, Nat.add_comm]

theorem not_isEmpty_of_ne_nil {α : Type} {l : List α} (h : l ≠ []) :
    (!l.isEmpty) = true := by
  cases he : l.isEmpty
  · rfl
  · exact absurd (List.isEmpty_iff.mp he) h

theorem bnot_isEmpty_ne_true_of_nil {α : Type} {l : List α} (h : l = []) :
    ¬((!l.isEmpty) = true) := by
  subst h; simp

/-! ### The claims -/

/-- C4: barcode normalization strips whitespace, removes the lead-in marker
and every non-digit character, and yields absent exactly when the remaining
digit string is empty or consists only of zeros, otherwise the digit string
verbatim; the CSV-import normalizer and the manual-override normalizer agree
on every input; the spec's concrete examples hold for both. -/
theorem C4_normalization :
    (∀ raw : String,
        cleanBarcodeApp raw =
          (if digitsOnly raw = "" || (digitsOnly raw).data.all (fun c => c == '0')
           then none else some (digitsOnly raw)) ∧
        cleanBarcodeCsv (some raw) = cleanBarcodeApp raw) ∧
    cleanBarcodeApp "^600 95 51" = some "6009551" ∧
    cleanBarcodeApp "0000000000000" = none ∧
    cleanBarcodeApp "" = none ∧
    cleanBarcodeApp "abc" = none ∧
    cleanBarcodeCsv (some "^600 95 51") = some "6009551" ∧
    cleanBarcodeCsv (some "0000000000000") = none ∧
    cleanBarcodeCsv (some "") = none ∧
    cleanBarcodeCsv (some "abc") = none :=
  ⟨fun raw => ⟨cleanBarcodeApp_eq raw, cleanBarcodeCsv_eq_app raw⟩,
   by decide, by decide, by decide, by decide,
   by decide, by decide, by decide, by decide⟩

/-- C10: the two-report import counts, per report, exactly the records that
are not skipped (missing product code after normalization, sentinel codes
999998/999999, or non-product description markers), counting an update even
when nothing changes, and the total is the sum of the two counts — so a code
present in both reports contributes one to each count and two to the total,
as the concrete `X` instance shows. -/
theorem C10_import_counts :
    (∀ (db : DB) (rec_a rec_b : List ImportRec),
        (import_products_two_reports db rec_a rec_b).2 =
          ⟨rec_a.countP recImported, rec_b.countP recImported,
           rec_a.countP recImported + rec_b.countP recImported⟩) ∧
    (import_products_two_reports ⟨[], [], []⟩ [recX111] [recXabs]).2 = ⟨1, 1, 2⟩ := by
  constructor
  · intro db ra rb
    simp only [import_products_two_reports]
    rw [upsertProducts_count, upsertProducts_count]
  · decide

/-- C1 (code-bug exhibit): in the pre-override anomaly state — alias
`999 → P1` while `P2`'s own catalog barcode is also `999` — the smart-mode
row selection short-circuits on its first step, the Alias Index, and selects
exactly product `P1` (the alias wins over `P2`'s catalog match, in the
spec's strict order), but the call then raises `AttributeError` inside
`_rows_to_products` instead of returning `P1`, because `sqlite3.Row` has no
`get` method. -/
theorem C1_smart_alias_wins_but_raises :
    (searchRows dbAnomaly "999" "smart" 25).map (fun r => r.prod.product_code)
        = ["P1"] ∧
    searchProducts dbAnomaly "999" "smart" 25 = .error .attributeError := by
  constructor
  · decide
  · rfl

/-- C6 counterexample: in barcode mode the code consults the catalog's
`products.barcode` column before the Alias Index, so in the anomaly state the
scan `999` selects `P2`, whereas the chain the claim describes (alias index
first) selects `P1`. -/
theorem C6_counterexample :
    searchRows dbAnomaly "999" "barcode" 25
        ≠ specBarcodeModeRows dbAnomaly "999" 25 ∧
    (searchRows dbAnomaly "999" "barcode" 25).map (fun r => r.prod.product_code)
        = ["P2"] ∧
    (specBarcodeModeRows dbAnomaly "999" 25).map (fun r => r.prod.product_code)
        = ["P1"] := by
  refine ⟨by decide, by decide, by decide⟩

/-- C6 amended: in barcode mode the code tries the catalog
(`products.barcode`, exact or substring in one query) first, then the
Override Store (exact or substring), then the Alias Index (exact or
substring); the first non-empty step short-circuits.  Substring matching is
interleaved with exact matching at every step rather than reserved for a
final fallback, and the alias index is consulted last, not first. -/
theorem C6_amended_actual_chain (db : DB) (q : String) (lim : Nat)
    (hq : pyStrip q ≠ "") :
    (barcodeProductsRows db (compactSpaces (pyStrip q)) lim ≠ [] →
        searchRows db q "barcode" lim
          = barcodeProductsRows db (compactSpaces (pyStrip q)) lim) ∧
    (barcodeProductsRows db (compactSpaces (pyStrip q)) lim = [] →
      barcodeOverridesRows db (compactSpaces (pyStrip q)) lim ≠ [] →
        searchRows db q "barcode" lim
          = barcodeOverridesRows db (compactSpaces (pyStrip q)) lim) ∧
    (barcodeProductsRows db (compactSpaces (pyStrip q)) lim = [] →
      barcodeOverridesRows db (compactSpaces (pyStrip q)) lim = [] →
        searchRows db q "barcode" lim
          = barcodeAliasRows db (compactSpaces (pyStrip q)) lim) := by
  have hmode : searchRows db q "barcode" lim = barcodeRows db (pyStrip q) lim := by
    simp only [searchRows]
    rw [if_neg hq]
    rw [show pyStrip (if ("barcode" : String) = "" then "smart" else "barcode")
          = "barcode" from by decide]
    rw [if_neg (by decide), if_neg (by decide), if_neg (by decide),
        if_pos (by decide)]
  refine ⟨?_, ?_, ?_⟩
  · intro h1
    rw [hmode]
    simp only [barcodeRows]
    rw [if_pos (not_isEmpty_of_ne_nil h1)]
  · intro h1 h2
    rw [hmode]
    simp only [barcodeRows]
    rw [if_neg (bnot_isEmpty_ne_true_of_nil h1),
        if_pos (not_isEmpty_of_ne_nil h2)]
  · intro h1 h2
    rw [hmode]
    simp only [barcodeRows]
    rw [if_neg (bnot_isEmpty_ne_true_of_nil h1),
        if_neg (bnot_isEmpty_ne_true_of_nil h2)]

theorem C6_amended_witness :
    searchRows dbAnomaly "999" "barcode" 25
      = barcodeProductsRows dbAnomaly (compactSpaces (pyStrip "999")) 25 :=
  (C6_amended_actual_chain dbAnomaly "999" 25 (by decide)).1 (by decide)

/-- C7: clearing the override of a product that has no override row is an
idempotent no-op success: it reports that nothing was deleted, raises no
error, and returns the three stores unchanged — so any number of repeated
calls behaves identically. -/
theorem C7_clear_override_noop (db : DB) (code : String)
    (hcode : pyStrip code ≠ "")
    (hno : ∀ o ∈ db.overrides, o.product_code ≠ pyStrip code) :
    clear_product_barcode_override db code = .ok (db, ⟨false⟩) := by
  have hfind : db.overrides.find? (fun o => o.product_code == pyStrip code)
      = none := by
    rw [List.find?_eq_none]
    intro o ho
    simp only [beq_iff_eq]
    exact hno o ho
  simp only [clear_product_barcode_override]
  rw [if_neg hcode, hfind]

theorem C7_witness :
    clear_product_barcode_override dbAnomaly "P1" = .ok (dbAnomaly, ⟨false⟩) :=
  C7_clear_override_noop dbAnomaly "P1" (by decide) (by decide)

/-- C8: whenever the row selection of `_search_products_internal` yields at
least one row — any query, any mode — the function raises `AttributeError`
(`sqlite3.Row` provides no `get` method, which `_rows_to_products` calls),
and a call returns normally exactly when its result set is empty. -/
theorem C8_nonempty_result_raises (db : DB) (q mode : String) (lim : Nat) :
    (searchRows db q mode lim ≠ [] →
        searchProducts db q mode lim = .error .attributeError) ∧
    (searchRows db q mode lim = [] → searchProducts db q mode lim = .ok []) := by
  unfold searchProducts
  constructor
  · intro h
    cases hr : searchRows db q mode lim with
    | nil => exact absurd hr h
    | cons a t => rfl
  · intro h
    rw [h]
    rfl

theorem C8_witness :
    searchProducts dbAnomaly "999" "smart" 25 = .error .attributeError :=
  (C8_nonempty_result_raises dbAnomaly "999" "smart" 25).1 (by decide)

/-- C2: for an existing product whose stored catalog barcode is non-absent,
upserting any record whose barcode is absent — from either report, i.e. for
either value of `prefer_barcode` — leaves that stored catalog barcode
unchanged: absence never erases. -/
theorem C2_absent_never_erases (db : DB) (rec : ImportRec) (prefer : Bool)
    (pc : String) (p : ProductRow) (b : String)
    (hp : lookupProduct db pc = some p) (hb : p.barcode = some b)
    (habs : rec.barcode = none) :
    ∃ p2, lookupProduct (upsertOne db prefer rec).1 pc = some p2 ∧
      p2.barcode = some b := by
  have hppc : p.product_code = pc := by
    have h := hp
    simp only [lookupProduct] at h
    have h2 := List.find?_some (p := fun x : ProductRow => x.product_code == pc) h
    exact eq_of_beq h2
  simp only [upsertOne, habs, optStrTruthy, Bool.false_eq_true, if_false]
  generalize (if pyNorm rec.full_description = "" then "Unknown product"
      else pyNorm rec.full_description) = desc
  generalize (if pyNorm rec.manufacturers_product_code = "" then (none : Option String)
      else some (pyNorm rec.manufacturers_product_code)) = mpc
  generalize (if prefer = true then (none : Option String) else none) = ibc
  split
  · exact ⟨p, hp, hb⟩
  · split
    · exact ⟨p, hp, hb⟩
    · split
      · rename_i existing hfind
        simp only [lookupProduct] at hp ⊢
        rw [find?_map_pres, hp]
        · simp only [Option.map_some']
          by_cases hpc : (p.product_code == pyNorm rec.product_code) = true
          · have hcode : pyNorm rec.product_code = pc :=
              (eq_of_beq hpc).symm.trans hppc
            have hex : existing = p := by
              rw [hcode] at hfind
              rw [hfind] at hp
              exact Option.some.inj hp
            refine ⟨_, rfl, ?_⟩
            rw [if_pos hpc]
            show existing.barcode = some b
            rw [hex]
            exact hb
          · refine ⟨_, rfl, ?_⟩
            rw [if_neg hpc]
            exact hb
        · intro x
          by_cases hx : (x.product_code == pyNorm rec.product_code) = true
          · rw [if_pos hx]
          · rw [if_neg hx]
      · rename_i hfind
        refine ⟨p, ?_, hb⟩
        simp only [lookupProduct] at hp ⊢
        rw [List.find?_append, hp, Option.or_some]

/-! ### Inversion of a successful override set -/

theorem set_ok_inv {db : DB} {pcode raw : String} {a : Bool} {db1 : DB} {b : String}
    (h : set_product_barcode db pcode raw a = .ok (db1, b)) :
    cleanBarcodeApp raw = some b ∧
    pyStrip pcode ≠ "" ∧
    (db.products.find? (fun p => p.product_code == pyStrip pcode)).isSome ∧
    (match db.aliases.find? (fun al => al.barcode == b) with
      | some row => row.product_code = pyStrip pcode
      | none => True) ∧
    db1 = ⟨(if a then db.products.map (fun p =>
              if p.product_code == pyStrip pcode then { p with barcode := some b }
              else p)
            else db.products),
           (match db.overrides.find? (fun o => o.product_code == pyStrip pcode) with
            | some _ => db.overrides.map (fun o =>
                if o.product_code == pyStrip pcode then { o with barcode := b }
                else o)
            | none => db.overrides ++ [⟨pyStrip pcode, b⟩]),
           (match db.aliases.find? (fun al => al.barcode == b) with
            | some _ => db.aliases.map (fun al =>
                if al.barcode == b then { al with product_code := pyStrip pcode }
                else al)
            | none => db.aliases ++ [⟨b, pyStrip pcode⟩])⟩ := by
  simp only [set_product_barcode] at h
  split at h
  · exact absurd h (by simp)
  · split at h
    · exact absurd h (by simp)
    · rename_i hcode0
      split at h
      · exact absurd h (by simp)
      · rename_i new_bc hclean
        split at h
        · exact absurd h (by simp)
        · rename_i pr hfind
          split at h
          · exact absurd h (by simp)
          · rename_i hconf
            simp only [Except.ok.injEq, Prod.mk.injEq] at h
            obtain ⟨hdb, rfl⟩ := h
            refine ⟨hclean, hcode0, ?_, ?_, hdb.symm⟩
            · rw [hfind]
              rfl
            · cases hfa : db.aliases.find? (fun al => al.barcode == new_bc) with
              | none => trivial
              | some row =>
                rw [hfa] at hconf
                simp only [Bool.not_eq_true, bne_eq_false_iff_eq] at hconf
                exact hconf

theorem set_ok_alias_all {db : DB} {pcode raw : String} {a : Bool} {db1 : DB}
    {b : String} (h : set_product_barcode db pcode raw a = .ok (db1, b)) :
    ∀ al ∈ db1.aliases, al.barcode = b → al.product_code = pyStrip pcode := by
  obtain ⟨-, -, -, -, hdb⟩ := set_ok_inv h
  subst hdb
  intro al hal hbc
  simp only at hal
  revert hal
  cases hfa : db.aliases.find? (fun al2 => al2.barcode == b) with
  | some row =>
    intro hal
    obtain ⟨orig, horig, hor⟩ := List.mem_map.mp hal
    by_cases hob : (orig.barcode == b) = true
    · rw [if_pos hob] at hor
      rw [← hor]
    · rw [if_neg hob] at hor
      subst hor
      exact absurd (beq_iff_eq.mpr hbc) hob
  | none =>
    intro hal
    rcases List.mem_append.mp hal with hl | hr
    · have := List.find?_eq_none.mp hfa al hl
      exact absurd (beq_iff_eq.mpr hbc) this
    · rw [List.mem_singleton.mp hr]

theorem set_ok_alias_exists {db : DB} {pcode raw : String} {a : Bool} {db1 : DB}
    {b : String} (h : set_product_barcode db pcode raw a = .ok (db1, b)) :
    ∃ al ∈ db1.aliases, al.barcode = b := by
  obtain ⟨-, -, -, -, hdb⟩ := set_ok_inv h
  subst hdb
  simp only
  cases hfa : db.aliases.find? (fun al2 => al2.barcode == b) with
  | some row =>
    have hrow : (row.barcode == b) = true :=
      List.find?_some (p := fun al2 : AliasRow => al2.barcode == b) hfa
    refine ⟨(if (row.barcode == b) = true then
        { row with product_code := pyStrip pcode } else row), ?_, ?_⟩
    · exact List.mem_map_of_mem _ (List.mem_of_find?_eq_some hfa)
    · rw [if_pos hrow]
      exact eq_of_beq hrow
  | none =>
    exact ⟨⟨b, pyStrip pcode⟩, List.mem_append_right _ (List.mem_singleton.mpr rfl), rfl⟩

theorem set_ok_alias_frame {db : DB} {pcode raw : String} {a : Bool} {db1 : DB}
    {b : String} (h : set_product_barcode db pcode raw a = .ok (db1, b)) :
    ∀ al ∈ db.aliases, al.barcode ≠ b → al ∈ db1.aliases := by
  obtain ⟨-, -, -, -, hdb⟩ := set_ok_inv h
  subst hdb
  intro al hal hne
  simp only
  cases hfa : db.aliases.find? (fun al2 => al2.barcode == b) with
  | some row =>
    have : (if (al.barcode == b) = true then
        { al with product_code := pyStrip pcode } else al) = al := by
      rw [if_neg]
      intro hc
      exact hne (eq_of_beq hc)
    rw [← this]
    exact List.mem_map_of_mem _ hal
  | none => exact List.mem_append_left _ hal

theorem set_ok_alias_back {db : DB} {pcode raw : String} {a : Bool} {db1 : DB}
    {b : String} (h : set_product_barcode db pcode raw a = .ok (db1, b)) :
    ∀ al ∈ db1.aliases, al.barcode ≠ b → al ∈ db.aliases := by
  obtain ⟨-, -, -, -, hdb⟩ := set_ok_inv h
  subst hdb
  intro al hal hne
  simp only at hal
  revert hal
  cases hfa : db.aliases.find? (fun al2 => al2.barcode == b) with
  | some row =>
    intro hal
    obtain ⟨orig, horig, hor⟩ := List.mem_map.mp hal
    by_cases hob : (orig.barcode == b) = true
    · rw [if_pos hob] at hor
      subst hor
      exact absurd (eq_of_beq hob) hne
    · rw [if_neg hob] at hor
      subst hor
      exact horig
  | none =>
    intro hal
    rcases List.mem_append.mp hal with hl | hr
    · exact hl
    · rw [List.mem_singleton.mp hr] at hne
      exact absurd rfl hne

theorem set_ok_override_lookup {db : DB} {pcode raw : String} {a : Bool} {db1 : DB}
    {b : String} (h : set_product_barcode db pcode raw a = .ok (db1, b)) :
    ∃ o, db1.overrides.find? (fun o2 => o2.product_code == pyStrip pcode) = some o ∧
      o.barcode = b := by
  obtain ⟨-, -, -, -, hdb⟩ := set_ok_inv h
  subst hdb
  simp only
  cases hfo : db.overrides.find? (fun o2 => o2.product_code == pyStrip pcode) with
  | some row =>
    rw [find?_map_pres, hfo]
    · simp only [Option.map_some']
      refine ⟨_, rfl, ?_⟩
      rw [if_pos (List.find?_some
            (p := fun o2 : OverrideRow => o2.product_code == pyStrip pcode) hfo)]
    · intro x
      by_cases hx : (x.product_code == pyStrip pcode) = true
      · rw [if_pos hx]
      · rw [if_neg hx]
  | none =>
    rw [List.find?_append, hfo, List.find?_cons_of_pos _ (by simp)]
    exact ⟨_, rfl, rfl⟩

theorem set_ok_products_codes {db : DB} {pcode raw : String} {a : Bool} {db1 : DB}
    {b : String} (h : set_product_barcode db pcode raw a = .ok (db1, b)) :
    db1.products.map (fun p => p.product_code)
      = db.products.map (fun p => p.product_code) := by
  obtain ⟨-, -, -, -, hdb⟩ := set_ok_inv h
  subst hdb
  simp only
  cases a with
  | false => rfl
  | true =>
    rw [if_pos rfl, List.map_map]
    apply List.map_congr_left
    intro x _
    simp only [Function.comp]
    by_cases hx : (x.product_code == pyStrip pcode) = true
    · rw [if_pos hx]
    · rw [if_neg hx]

theorem set_ok_products_mem_code {db : DB} {pcode raw : String} {a : Bool}
    {db1 : DB} {b : String} (h : set_product_barcode db pcode raw a = .ok (db1, b))
    (c : String) :
    (∃ p ∈ db1.products, p.product_code = c) ↔ ∃ p ∈ db.products, p.product_code = c := by
  have hm := set_ok_products_codes h
  constructor
  · intro ⟨p, hp, hc⟩
    have : c ∈ db1.products.map (fun p => p.product_code) :=
      List.mem_map.mpr ⟨p, hp, hc⟩
    rw [hm] at this
    exact List.mem_map.mp this
  · intro ⟨p, hp, hc⟩
    have : c ∈ db.products.map (fun p => p.product_code) :=
      List.mem_map.mpr ⟨p, hp, hc⟩
    rw [← hm] at this
    exact List.mem_map.mp this

theorem C2_witness :
    ∃ p2, lookupProduct (upsertOne dbX false recXabs).1 "X" = some p2 ∧
      p2.barcode = some "111" :=
  C2_absent_never_erases dbX recXabs false "X"
    ⟨"X", "Widget", 10, none, some "111"⟩ "111" (by decide) (by decide) (by decide)

/-- C3: `set_override` fails with `InvalidBarcode` when the raw barcode
normalizes to absent; otherwise fails with `ProductNotFound` when the product
code is not in the Catalog Store; otherwise fails with `BarcodeConflict` when
the Alias Index maps the normalized barcode to a different product code; and
otherwise succeeds — in particular, immediately repeating a successful
assignment (the alias then points at this very product) succeeds again with
the same barcode instead of conflicting. -/
theorem C3_set_override_errors (db : DB) (code raw : String) (also : Bool)
    (hraw : raw ≠ "") (hcode : pyStrip code ≠ "") :
    (cleanBarcodeApp raw = none →
        set_product_barcode db code raw also = .error .invalidBarcode) ∧
    (∀ bc, cleanBarcodeApp raw = some bc →
      (lookupProduct db (pyStrip code) = none →
          set_product_barcode db code raw also = .error .productNotFound) ∧
      (lookupProduct db (pyStrip code) ≠ none →
        (∀ arow, db.aliases.find? (fun al => al.barcode == bc) = some arow →
            arow.product_code ≠ pyStrip code →
            set_product_barcode db code raw also = .error .barcodeConflict) ∧
        ((∀ arow, db.aliases.find? (fun al => al.barcode == bc) = some arow →
            arow.product_code = pyStrip code) →
          ∃ db2, set_product_barcode db code raw also = .ok (db2, bc)))) ∧
    (∀ db2 bc, set_product_barcode db code raw also = .ok (db2, bc) →
        ∃ db3, set_product_barcode db2 code raw also = .ok (db3, bc)) := by
  refine ⟨?_, ?_, ?_⟩
  · intro hcl
    simp [set_product_barcode, hraw, hcode, hcl]
  · intro bc hcl
    constructor
    · intro hnone
      simp only [lookupProduct] at hnone
      simp [set_product_barcode, hraw, hcode, hcl, hnone]
    · intro hsome
      simp only [lookupProduct] at hsome
      obtain ⟨pr, hpr⟩ := Option.ne_none_iff_exists'.mp hsome
      constructor
      · intro arow hfa hne
        have hbne : (arow.product_code != pyStrip code) = true := bne_iff_ne.mpr hne
        simp [set_product_barcode, hraw, hcode, hcl, hpr, hfa, hbne]
      · intro hall
        cases hfa : db.aliases.find? (fun al => al.barcode == bc) with
        | none =>
          simp [set_product_barcode, hraw, hcode, hcl, hpr, hfa]
        | some arow =>
          have hbne : (arow.product_code != pyStrip code) = false :=
            bne_eq_false_iff_eq.mpr (hall arow hfa)
          simp [set_product_barcode, hraw, hcode, hcl, hpr, hfa, hbne]
  · intro db2 bc hok
    obtain ⟨hcl, -, hps, -, -⟩ := set_ok_inv hok
    have hprod2 : ∃ pr2, db2.products.find?
        (fun p => p.product_code == pyStrip code) = some pr2 := by
      apply Option.isSome_iff_exists.mp
      rw [List.find?_isSome]
      rw [List.find?_isSome] at hps
      obtain ⟨x, hx, hpx⟩ := hps
      obtain ⟨y, hy, hyc⟩ :=
        (set_ok_products_mem_code hok (pyStrip code)).mpr ⟨x, hx, eq_of_beq hpx⟩
      exact ⟨y, hy, beq_iff_eq.mpr hyc⟩
    obtain ⟨pr2, hpr2⟩ := hprod2
    obtain ⟨al0, hal0, hal0b⟩ := set_ok_alias_exists hok
    have hfa2 : ∃ arow, db2.aliases.find? (fun al => al.barcode == bc)
        = some arow := by
      apply Option.isSome_iff_exists.mp
      rw [List.find?_isSome]
      exact ⟨al0, hal0, beq_iff_eq.mpr hal0b⟩
    obtain ⟨arow, harow⟩ := hfa2
    have harow_pc : arow.product_code = pyStrip code :=
      set_ok_alias_all hok arow (List.mem_of_find?_eq_some harow)
        (eq_of_beq (List.find?_some (p := fun al : AliasRow => al.barcode == bc) harow))
    have hbne : (arow.product_code != pyStrip code) = false :=
      bne_eq_false_iff_eq.mpr harow_pc
    simp [set_product_barcode, hraw, hcode, hcl, hpr2, harow, hbne]

theorem C3_witness :
    set_product_barcode dbAnomaly "P1" "0000" false = .error .invalidBarcode ∧
    set_product_barcode dbAnomaly "ZZ" "123" false = .error .productNotFound ∧
    set_product_barcode dbAnomaly "P2" "999" false = .error .barcodeConflict ∧
    ∃ db2, set_product_barcode dbAnomaly "P1" "999" false = .ok (db2, "999") := by
  refine ⟨?_, ?_, ?_, ?_⟩
  · exact (C3_set_override_errors dbAnomaly "P1" "0000" false (by decide)
      (by decide)).1 (by decide)
  · exact ((C3_set_override_errors dbAnomaly "ZZ" "123" false (by decide)
      (by decide)).2.1 "123" (by decide)).1 (by decide)
  · exact (((C3_set_override_errors dbAnomaly "P2" "999" false (by decide)
      (by decide)).2.1 "999" (by decide)).2 (by decide)).1
      ⟨"999", "P1"⟩ (by decide) (by decide)
  · exact (((C3_set_override_errors dbAnomaly "P1" "999" false (by decide)
      (by decide)).2.1 "999" (by decide)).2 (by decide)).2
      (by
        intro arow h
        rw [show dbAnomaly.aliases.find? (fun al => al.barcode == "999")
              = some ⟨"999", "P1"⟩ from by decide] at h
        cases Option.some.inj h
        decide)

/-- C5: catalog import writes only the Catalog Store — the Override Store and
the Alias Index are left exactly unchanged by `_upsert_products` — and
consequently, after a successful override, any subsequent import leaves the
effective barcode that resolution computes for that product (the
`COALESCE(o.barcode, p.barcode)` of every resolver query) at the override
value, even though the stored catalog barcode may change. -/
theorem C5_import_never_touches_override (db : DB) (code raw : String)
    (also : Bool) (db1 : DB) (bc : String) (recs : List ImportRec) (prefer : Bool)
    (hset : set_product_barcode db code raw also = .ok (db1, bc)) :
    (upsertProducts db1 recs prefer).1.overrides = db1.overrides ∧
    (upsertProducts db1 recs prefer).1.aliases = db1.aliases ∧
    ∀ p, lookupProduct (upsertProducts db1 recs prefer).1 (pyStrip code) = some p →
      effectiveBarcode (upsertProducts db1 recs prefer).1 p = some bc := by
  refine ⟨upsertProducts_overrides _ _ _, upsertProducts_aliases _ _ _, ?_⟩
  intro p hp
  have hpc : p.product_code = pyStrip code := by
    have h := hp
    simp only [lookupProduct] at h
    have h2 := List.find?_some
      (p := fun x : ProductRow => x.product_code == pyStrip code) h
    exact eq_of_beq h2
  unfold effectiveBarcode
  rw [upsertProducts_overrides, hpc]
  obtain ⟨o, ho, hob⟩ := set_ok_override_lookup hset
  rw [ho]
  show some o.barcode = some bc
  rw [hob]

theorem C5_witness :
    (upsertProducts dbXov [recX111] true).1.overrides = dbXov.overrides ∧
    (upsertProducts dbXov [recX111] true).1.aliases = dbXov.aliases ∧
    ∀ p, lookupProduct (upsertProducts dbXov [recX111] true).1 (pyStrip "X")
        = some p →
      effectiveBarcode (upsertProducts dbXov [recX111] true).1 p = some "222" :=
  C5_import_never_touches_override dbX "X" "222" false dbXov "222" [recX111]
    true rfl

/-! ### Helper lemmas: the alias step of the smart search -/

theorem ovJoin_ne_nil (db : DB) (p : ProductRow) : ovJoin db p ≠ [] := by
  unfold ovJoin
  cases hms : (db.overrides.filter
      (fun o => o.product_code == p.product_code)).isEmpty with
  | true => simp [hms]
  | false =>
    have hne : db.overrides.filter (fun o => o.product_code == p.product_code)
        ≠ [] := by
      intro hnil
      rw [hnil] at hms
      exact Bool.noConfusion hms
    simp [hms, hne]

theorem effRows_ne_nil (db : DB) (p : ProductRow) : effRows db p ≠ [] := by
  unfold effRows
  intro h
  rw [List.map_eq_nil_iff] at h
  exact ovJoin_ne_nil db p h

theorem aliasExactRows_ne_nil (db : DB) (bc : String) (lim : Nat) (hlim : lim ≠ 0)
    (al : AliasRow) (hal : al ∈ db.aliases) (hbc : al.barcode = bc)
    (hp : ∃ p ∈ db.products, p.product_code = al.product_code) :
    aliasExactRows db bc lim ≠ [] := by
  unfold aliasExactRows
  apply take_ne_nil_of _ hlim
  intro hnil
  rw [List.flatMap_eq_nil_iff] at hnil
  obtain ⟨p, hpm, hpc⟩ := hp
  have half : al ∈ db.aliases.filter (fun a => a.barcode == bc) :=
    List.mem_filter.mpr ⟨hal, beq_iff_eq.mpr hbc⟩
  have h2 := hnil al half
  rw [List.flatMap_eq_nil_iff] at h2
  have hpf : p ∈ db.products.filter (fun p2 => p2.product_code == al.product_code) :=
    List.mem_filter.mpr ⟨hpm, beq_iff_eq.mpr hpc⟩
  exact effRows_ne_nil db p (h2 p hpf)

theorem aliasExactRows_codes (db : DB) (bc : String) (lim : Nat) :
    ∀ r ∈ aliasExactRows db bc lim,
      ∃ al ∈ db.aliases, al.barcode = bc ∧
        r.prod.product_code = al.product_code := by
  intro r hr
  unfold aliasExactRows at hr
  have hr2 := List.mem_of_mem_take hr
  rw [List.mem_flatMap] at hr2
  obtain ⟨al, half, hin⟩ := hr2
  rw [List.mem_flatMap] at hin
  obtain ⟨p, hpf, hre⟩ := hin
  obtain ⟨hal, halb⟩ := List.mem_filter.mp half
  obtain ⟨hpm, hpc⟩ := List.mem_filter.mp hpf
  refine ⟨al, hal, eq_of_beq halb, ?_⟩
  unfold effRows at hre
  rw [List.mem_map] at hre
  obtain ⟨ob, -, hrr⟩ := hre
  rw [← hrr]
  exact eq_of_beq hpc

theorem searchRows_smart_eq (db : DB) (q : String) (lim : Nat)
    (hq : pyStrip q ≠ "") :
    searchRows db q "smart" lim = smartRows db (pyStrip q) lim := by
  simp only [searchRows]
  rw [if_neg hq,
      show pyStrip (if ("smart" : String) = "" then "smart" else "smart")
        = "smart" from by decide,
      if_pos rfl]

theorem smartRows_alias_step (db : DB) (q : String) (lim : Nat)
    (hc : compactSpaces q = q) (hd : pyIsDigit q = true)
    (hne : aliasExactRows db q lim ≠ []) :
    smartRows db q lim = aliasExactRows db q lim := by
  simp only [smartRows]
  rw [hc, if_pos hd, if_pos (not_isEmpty_of_ne_nil hne)]

/-- C9: re-assigning a product's override never cleans up the previous alias:
after `set_override(P, b1)` and then `set_override(P, b2)` with `b2 ≠ b1`,
the alias row for `b1` is still present and still points at `P`; a smart-mode
scan of `b1` still selects `P`'s rows through the alias path; a subsequent
`set_override(Q, b1)` for any other existing product `Q` fails with
`BarcodeConflict`; and `clear_override(P)` afterwards deletes only the `b2`
alias, leaving the stale `b1` alias in place. -/
theorem C9_stale_alias (db : DB) (pcode raw1 raw2 : String) (a1 a2 : Bool)
    (db1 db2 : DB) (b1 b2 : String)
    (h1 : set_product_barcode db pcode raw1 a1 = .ok (db1, b1))
    (h2 : set_product_barcode db1 pcode raw2 a2 = .ok (db2, b2))
    (hne : b1 ≠ b2) (lim : Nat) (hlim : lim ≠ 0)
    (Q : String) (hQs : pyStrip Q ≠ "") (hQne : pyStrip Q ≠ pyStrip pcode)
    (hQex : lookupProduct db2 (pyStrip Q) ≠ none) :
    ((∃ al ∈ db2.aliases, al.barcode = b1 ∧ al.product_code = pyStrip pcode) ∧
     ∀ al ∈ db2.aliases, al.barcode = b1 → al.product_code = pyStrip pcode) ∧
    (searchRows db2 b1 "smart" lim ≠ [] ∧
     ∀ r ∈ searchRows db2 b1 "smart" lim,
       r.prod.product_code = pyStrip pcode) ∧
    set_product_barcode db2 Q b1 false = .error .barcodeConflict ∧
    (∃ db3, clear_product_barcode_override db2 pcode = .ok (db3, ⟨true⟩) ∧
      (∃ al ∈ db3.aliases, al.barcode = b1 ∧ al.product_code = pyStrip pcode) ∧
      ∀ al ∈ db3.aliases, al.barcode ≠ b2) := by
  have hcl1 : cleanBarcodeApp raw1 = some b1 := (set_ok_inv h1).1
  have hcl2 : cleanBarcodeApp raw2 = some b2 := (set_ok_inv h2).1
  obtain ⟨-, hb1data, hb1dig, -⟩ := cleanBarcodeApp_some hcl1
  obtain ⟨-, hb2data, hb2dig, -⟩ := cleanBarcodeApp_some hcl2
  have hb1s : pyStrip b1 = b1 := pyStrip_of_digits hb1dig
  have hb1c : compactSpaces b1 = b1 := compactSpaces_of_digits hb1dig
  have hb1d : pyIsDigit b1 = true := pyIsDigit_of_digits hb1data hb1dig
  have hb1ne : b1 ≠ "" := ne_empty_of_data_ne hb1data
  have hb2s : pyStrip b2 = b2 := pyStrip_of_digits hb2dig
  have hb2ne : b2 ≠ "" := ne_empty_of_data_ne hb2data
  have hcode : pyStrip pcode ≠ "" := (set_ok_inv h1).2.1
  have hallv : ∀ al ∈ db2.aliases, al.barcode = b1 →
      al.product_code = pyStrip pcode := by
    intro al hal hb
    have hal1 : al ∈ db1.aliases :=
      set_ok_alias_back h2 al hal (by rw [hb]; exact hne)
    exact set_ok_alias_all h1 al hal1 hb
  have hexv : ∃ al ∈ db2.aliases, al.barcode = b1 ∧
      al.product_code = pyStrip pcode := by
    obtain ⟨al, hal, halb⟩ := set_ok_alias_exists h1
    have hal2 : al ∈ db2.aliases :=
      set_ok_alias_frame h2 al hal (by rw [halb]; exact hne)
    exact ⟨al, hal2, halb, hallv al hal2 halb⟩
  have hpex : ∃ p ∈ db2.products, p.product_code = pyStrip pcode := by
    have hps := (set_ok_inv h2).2.2.1
    rw [List.find?_isSome] at hps
    obtain ⟨x, hx, hpx⟩ := hps
    exact (set_ok_products_mem_code h2 (pyStrip pcode)).mpr ⟨x, hx, eq_of_beq hpx⟩
  have haer_ne : aliasExactRows db2 b1 lim ≠ [] := by
    obtain ⟨al, hal, halb, halp⟩ := hexv
    apply aliasExactRows_ne_nil db2 b1 lim hlim al hal halb
    obtain ⟨p, hpm, hpc⟩ := hpex
    exact ⟨p, hpm, by rw [hpc, halp]⟩
  have hsr : searchRows db2 b1 "smart" lim = aliasExactRows db2 b1 lim := by
    rw [searchRows_smart_eq db2 b1 lim (by rw [hb1s]; exact hb1ne), hb1s]
    exact smartRows_alias_step db2 b1 lim hb1c hb1d haer_ne
  have hsearch_ne : searchRows db2 b1 "smart" lim ≠ [] := by
    rw [hsr]
    exact haer_ne
  have hsearch_codes : ∀ r ∈ searchRows db2 b1 "smart" lim,
      r.prod.product_code = pyStrip pcode := by
    rw [hsr]
    intro r hr
    obtain ⟨al, hal, halb, hrc⟩ := aliasExactRows_codes db2 b1 lim r hr
    rw [hrc]
    exact hallv al hal halb
  have hconflict : set_product_barcode db2 Q b1 false
      = .error .barcodeConflict := by
    have hcli : cleanBarcodeApp b1 = some b1 := cleanBarcodeApp_idem hcl1
    simp only [lookupProduct] at hQex
    obtain ⟨prQ, hprQ⟩ := Option.ne_none_iff_exists'.mp hQex
    have hfa2 : ∃ arow, db2.aliases.find? (fun al => al.barcode == b1)
        = some arow := by
      apply Option.isSome_iff_exists.mp
      rw [List.find?_isSome]
      obtain ⟨al, hal, halb, -⟩ := hexv
      exact ⟨al, hal, beq_iff_eq.mpr halb⟩
    obtain ⟨arow, harow⟩ := hfa2
    have harowpc : arow.product_code = pyStrip pcode :=
      hallv arow (List.mem_of_find?_eq_some harow)
        (eq_of_beq (List.find?_some
          (p := fun al : AliasRow => al.barcode == b1) harow))
    have hpcne : arow.product_code ≠ pyStrip Q := by
      rw [harowpc]
      exact fun hcc => hQne hcc.symm
    have hbneq : (arow.product_code != pyStrip Q) = true := bne_iff_ne.mpr hpcne
    simp [set_product_barcode, hb1ne, hQs, hcli, hprQ, harow, hbneq]
  obtain ⟨o2, ho2, ho2b⟩ := set_ok_override_lookup h2
  have hbcs : pyStrip o2.barcode = b2 := by rw [ho2b]; exact hb2s
  have hbcne : (pyStrip o2.barcode != "") = true := by
    rw [hbcs]
    exact bne_iff_ne.mpr hb2ne
  obtain ⟨al2, hal2, hal2b⟩ := set_ok_alias_exists h2
  have hfa3 : ∃ arow2, db2.aliases.find? (fun al => al.barcode == b2)
      = some arow2 := by
    apply Option.isSome_iff_exists.mp
    rw [List.find?_isSome]
    exact ⟨al2, hal2, beq_iff_eq.mpr hal2b⟩
  obtain ⟨arow2, harow2⟩ := hfa3
  have harow2pc : (arow2.product_code == pyStrip pcode) = true := by
    apply beq_iff_eq.mpr
    apply set_ok_alias_all h2 arow2 (List.mem_of_find?_eq_some harow2)
    exact eq_of_beq (List.find?_some
      (p := fun al : AliasRow => al.barcode == b2) harow2)
  have hclear : clear_product_barcode_override db2 pcode
      = .ok (⟨db2.products,
             db2.overrides.filter (fun o => !(o.product_code == pyStrip pcode)),
             db2.aliases.filter (fun al => !(al.barcode == b2))⟩, ⟨true⟩) := by
    simp [clear_product_barcode_override, hcode, ho2, hbcs, hbcne, harow2,
          harow2pc, hb2ne]
  refine ⟨⟨hexv, hallv⟩, ⟨hsearch_ne, hsearch_codes⟩, hconflict, ?_⟩
  refine ⟨_, hclear, ?_, ?_⟩
  · obtain ⟨al, hal, halb, halp⟩ := hexv
    refine ⟨al, ?_, halb, halp⟩
    apply List.mem_filter.mpr
    refine ⟨hal, ?_⟩
    rw [halb, beq_eq_false_iff_ne.mpr hne]
    rfl
  · intro al hal hcc
    have hflt := (List.mem_filter.mp hal).2
    rw [hcc] at hflt
    simp at hflt

theorem C9_witness :
    ((∃ al ∈ dbPQ2.aliases, al.barcode = "111" ∧ al.product_code = pyStrip "P") ∧
     ∀ al ∈ dbPQ2.aliases, al.barcode = "111" → al.product_code = pyStrip "P") ∧
    (searchRows dbPQ2 "111" "smart" 25 ≠ [] ∧
     ∀ r ∈ searchRows dbPQ2 "111" "smart" 25,
       r.prod.product_code = pyStrip "P") ∧
    set_product_barcode dbPQ2 "Q" "111" false = .error .barcodeConflict ∧
    (∃ db3, clear_product_barcode_override dbPQ2 "P" = .ok (db3, ⟨true⟩) ∧
      (∃ al ∈ db3.aliases, al.barcode = "111" ∧ al.product_code = pyStrip "P") ∧
      ∀ al ∈ db3.aliases, al.barcode ≠ "222") :=
  C9_stale_alias dbPQ "P" "111" "222" false false dbPQ1 dbPQ2 "111" "222"
    rfl rfl (by decide) 25 (by decide) "Q" (by decide) (by decide) (by decide)

end Midlands
